import Mathlib

/-!
Verification of the game-session lifecycle and scoring engine of the
dacodes_test backend (src/dacodes_test/models/games.py), shallowly embedded
in Lean.

Timestamps are modelled as integers counting microseconds (Python datetime
arithmetic is exact to the microsecond).  Python `timedelta` normalisation
stores a delta as `days`, `seconds`, `microseconds` with
`0 ≤ seconds < 86400` and `0 ≤ microseconds < 1000000`; for a positive
divisor Python floor division and Euclidean division agree, and Lean `/`
and `%` on `Int` are Euclidean, so they model Python `//` and `%` exactly.

The relational store is modelled as the list of persisted `GameSession`
rows in insertion order together with the autoincrement counter.
-/

/-- Session status enumeration, from class GameSessionStatus
(active / stopped / expired). -/
inductive GameSessionStatus
| ACTIVE
| STOPPED
| EXPIRED
deriving DecidableEq

/-- One persisted game-session row, from class GameSession / GameSessionModel.
`stop_time` is nullable; `duration` and `deviation` default to 0. -/
structure GameSession where
  id : Nat
  user_id : Nat
  start_time : Int
  stop_time : Option Int
  status : GameSessionStatus
  duration : Int
  deviation : Int
deriving DecidableEq

/-- The session store: persisted rows in insertion order, plus the
autoincrement primary-key counter. -/
structure Store where
  sessions : List GameSession
  nextId : Nat
deriving DecidableEq

/-- The store before any operation has run. -/
def emptyStore : Store := { sessions := [], nextId := 1 }

/-- Predicate of the start query:
`where user_id == user_id and status == ACTIVE`. -/
def isActiveFor (uid : Nat) (s : GameSession) : Bool :=
  decide (s.user_id = uid ∧ s.status = GameSessionStatus.ACTIVE)

/-- Model of `results.first()` of the start query. -/
def findActiveSession (st : Store) (uid : Nat) : Option GameSession :=
  st.sessions.find? (isActiveFor uid)

/-- Model of `start_game_session(session, user_id)`: return the existing ACTIVE
session if there is one, else create and persist a fresh row with
`start_time = now`, status ACTIVE, duration 0, deviation 0. -/
def start_game_session (st : Store) (now : Int) (user_id : Nat) :
    GameSession × Store :=
  match findActiveSession st user_id with
  | some s => (s, st)
  | none =>
    let gs : GameSession :=
      { id := st.nextId, user_id := user_id, start_time := now,
        stop_time := none, status := GameSessionStatus.ACTIVE,
        duration := 0, deviation := 0 }
    (gs, { sessions := st.sessions ++ [gs], nextId := st.nextId + 1 })

/-- Constant `EXPIRED_THRESHOLD_IN_SECONDS = 30 * 60 * 60` (the source comment reads
"30 minute in seconds" but the value is 108000). -/
def EXPIRED_THRESHOLD_IN_SECONDS : Int := 30 * 60 * 60

/-- Python `timedelta.days` of a delta of `t` microseconds. -/
def delta_days (t : Int) : Int := t / 86400000000

/-- Python `timedelta.seconds` of a delta of `t` microseconds
(the seconds component after normalisation, in `[0, 86400)`). -/
def delta_seconds (t : Int) : Int := (t % 86400000000) / 1000000

/-- Python `timedelta.microseconds` of a delta of `t` microseconds. -/
def delta_microseconds (t : Int) : Int := (t % 86400000000) % 1000000

/-- Predicate of the stop query: `where id == game_session_id and
status == ACTIVE` (the caller's user id is not part of the lookup). -/
def isStoppable (gsid : Nat) (s : GameSession) : Bool :=
  decide (s.id = gsid ∧ s.status = GameSessionStatus.ACTIVE)

/-- Model of `results.first()` of the stop query. -/
def findStoppable (st : Store) (gsid : Nat) : Option GameSession :=
  st.sessions.find? (isStoppable gsid)

/-- Persist an updated row: the ORM update keyed on the primary key. -/
def updateSession (st : Store) (s : GameSession) : Store :=
  { sessions := st.sessions.map (fun t => if t.id = s.id then s else t),
    nextId := st.nextId }

/-- First write phase of `stop_game_session`: set `stop_time = now`,
commit.  Returns the refreshed row and the committed store, or `none`
when the stop query matched nothing. -/
def stop_phase1 (st : Store) (now : Int) (gsid : Nat) :
    Option (GameSession × Store) :=
  match findStoppable st gsid with
  | none => none
  | some s =>
    let s1 := { s with stop_time := some now }
    some (s1, updateSession st s1)

/-- Second computation phase of `stop_game_session`: re-read `stop_time`,
recompute `delta_time = stop_time - start_time`, classify the status by
comparing `delta_time.seconds` with the threshold, and fill in
`duration` (milliseconds) and `deviation` (distance from 10000 ms). -/
def stop_finalize (s1 : GameSession) : GameSession :=
  match s1.stop_time with
  | none => s1
  | some t =>
    let delta := t - s1.start_time
    let status :=
      if delta_seconds delta < EXPIRED_THRESHOLD_IN_SECONDS then
        GameSessionStatus.STOPPED
      else GameSessionStatus.EXPIRED
    let dur := delta_days delta * 86400000 + delta_seconds delta * 1000 +
      delta_microseconds delta / 1000
    { s1 with status := status, duration := dur, deviation := |dur - 10000| }

/-- Model of `stop_game_session(session, game_session_id)`: two committed writes;
returns `none` (mapped to HTTP 404 by the boundary layer) when no ACTIVE
session with the given id exists. -/
def stop_game_session (st : Store) (now : Int) (gsid : Nat) :
    Option GameSession × Store :=
  match stop_phase1 st now gsid with
  | none => (none, st)
  | some (s1, st1) =>
    let s2 := stop_finalize s1
    (some s2, updateSession st1 s2)

/-- The stop endpoint as wired in src/main.py: `stop_game` passes
`current_user.id` alongside the session id, but the model-layer lookup in
src/dacodes_test/models/games.py neither receives nor uses the caller
identity, so the caller argument is ignored. -/
def stop_as_caller (st : Store) (now : Int) (gsid : Nat) (caller : Nat) :
    Option GameSession × Store :=
  stop_game_session st now gsid

/-- The list of store states committed to the database during one stop
call: the state after the `stop_time` write and the state after the
status/duration/deviation write. -/
def stopCommittedStores (st : Store) (now : Int) (gsid : Nat) : List Store :=
  match stop_phase1 st now gsid with
  | none => []
  | some (s1, st1) => [st1, updateSession st1 (stop_finalize s1)]

/-- One engine operation at the store boundary. -/
inductive GameOp
| start (user_id : Nat) (now : Int)
| stop (gsid : Nat) (now : Int)

/-- Effect of one operation on the store. -/
def applyOp (st : Store) (op : GameOp) : Store :=
  match op with
  | GameOp.start uid now => (start_game_session st now uid).2
  | GameOp.stop gsid now => (stop_game_session st now gsid).2

/-- The store after a sequence of operations run from the empty store. -/
def runOps (ops : List GameOp) : Store := ops.foldl applyOp emptyStore

/-- Number of ACTIVE sessions a user owns in a store. -/
def activeCount (st : Store) (uid : Nat) : Nat :=
  st.sessions.countP (isActiveFor uid)

/-- One row of the users table as the aggregation queries see it
(src/dacodes_test/models/users.py: id is the primary key, username is
unique). -/
structure UserRec where
  id : Nat
  username : String
deriving DecidableEq

/-- All sessions of one user, in insertion order
(`where user_id == user_id`, no status filter). -/
def sessionsOf (sessions : List GameSession) (uid : Nat) : List GameSession :=
  sessions.filter (fun s => decide (s.user_id = uid))

/-- The distinct user ids appearing among the sessions, in first-appearance
order: the grouping keys of `group_by(user_id)`. -/
def userIds (sessions : List GameSession) : List Nat :=
  (sessions.map (fun s => s.user_id)).dedup

/-- One row of the aggregation subquery: count, average deviation and
minimum deviation of one user's sessions (all statuses). -/
structure AggRow where
  user_id : Nat
  total_games : Nat
  avg_deviation : Rat
  best_deviation : Int
deriving DecidableEq

/-- The deviations of one user's sessions. -/
def devsOf (sessions : List GameSession) (uid : Nat) : List Int :=
  (sessionsOf sessions uid).map (fun s => s.deviation)

/-- The aggregate row of one group of the subquery: `count(id)`,
`avg(deviation)`, `min(deviation)` over one user's sessions. -/
def aggRowFor (sessions : List GameSession) (uid : Nat) : AggRow :=
  let devs := devsOf sessions uid
  { user_id := uid,
    total_games := devs.length,
    avg_deviation := ((devs.map (fun d => (d : Rat))).sum) / (devs.length : Rat),
    best_deviation := (devs.min?).getD 0 }

/-- The aggregation subquery: the aggregate rows grouped by `user_id`
over ALL sessions. -/
def aggByUser (sessions : List GameSession) : List AggRow :=
  (userIds sessions).map (aggRowFor sessions)

/-- One leaderboard row as returned to the boundary layer. -/
structure LeaderboardRow where
  username : String
  total_games : Nat
  average_deviation : Rat
  best_deviation : Int
deriving DecidableEq

/-- The inner join of an aggregate row with the users table on
`UserModel.id == subquery.c.user_id`; rows without a matching user are
dropped. -/
def joinUsername (users : List UserRec) (r : AggRow) : Option LeaderboardRow :=
  match users.find? (fun u => decide (u.id = r.user_id)) with
  | some u =>
    some { username := u.username, total_games := r.total_games,
           average_deviation := r.avg_deviation,
           best_deviation := r.best_deviation }
  | none => none

/-- The joined, unordered leaderboard rows. -/
def leaderboardRows (users : List UserRec) (sessions : List GameSession) :
    List LeaderboardRow :=
  (aggByUser sessions).filterMap (joinUsername users)

/-- The `order_by(avg_deviation.asc())` ordering relation. -/
def rowLe (a b : LeaderboardRow) : Prop :=
  a.average_deviation ≤ b.average_deviation

instance : DecidableRel rowLe := fun a b =>
  inferInstanceAs (Decidable (a.average_deviation ≤ b.average_deviation))

instance : IsTotal LeaderboardRow rowLe :=
  ⟨fun a b => le_total a.average_deviation b.average_deviation⟩

instance : IsTrans LeaderboardRow rowLe :=
  ⟨fun _ _ _ h1 h2 => le_trans h1 h2⟩

/-- Model of `calc_leaderboard(session, page, per_page)`: aggregate, join, order
ascending by average deviation, then `offset((page - 1) * per_page)` and
`limit(per_page)`. -/
def calc_leaderboard (users : List UserRec) (sessions : List GameSession)
    (page : Nat) (per_page : Nat) : List LeaderboardRow :=
  ((List.insertionSort rowLe (leaderboardRows users sessions)).drop
    ((page - 1) * per_page)).take per_page

/-- The record returned by `user_game_history`. -/
structure UserHistory where
  username : String
  total_games : Nat
  average_deviation : Rat
  best_deviation : Int
  history : List GameSession
deriving DecidableEq

/-- Model of `user_game_history(session, user_id)`: the same aggregates scoped to
one user (`where user_id == user_id` inside the subquery), joined to the
username, plus the full list of that user's sessions.  The source calls
`.first()` and then dereferences the stats row, so a user with no
sessions or no user row makes the call fail: modelled as `none`. -/
def user_game_history (users : List UserRec) (sessions : List GameSession)
    (uid : Nat) : Option UserHistory :=
  let scopedRows := (aggByUser sessions).filter (fun r => decide (r.user_id = uid))
  match (scopedRows.filterMap (joinUsername users)).head? with
  | none => none
  | some row =>
    some { username := row.username, total_games := row.total_games,
           average_deviation := row.average_deviation,
           best_deviation := row.best_deviation,
           history := sessionsOf sessions uid }

/-- Example user directory used to instantiate theorems on concrete data. -/
def exUsers : List UserRec := [{ id := 1, username := "alice" }]

/-- A concrete finished session of user 1 with the given id and deviation. -/
def exSess (i : Nat) (d : Int) : GameSession :=
  { id := i, user_id := 1, start_time := 0, stop_time := some 0,
    status := GameSessionStatus.STOPPED, duration := 10000 + d, deviation := d }

/-- Three stopped sessions of user 1 with deviations 100, 50 and 200. -/
def exSessions3 : List GameSession := [exSess 1 100, exSess 2 50, exSess 3 200]

theorem stop_none_eq (st : Store) (now : Int) (gsid : Nat)
    (h : findStoppable st gsid = none) :
    stop_game_session st now gsid = (none, st) := by
  simp [stop_game_session, stop_phase1, h]

theorem stop_success_eq (st : Store) (now : Int) (gsid : Nat) (s : GameSession)
    (h : findStoppable st gsid = some s) :
    stop_game_session st now gsid =
      (some (stop_finalize { s with stop_time := some now }),
       updateSession (updateSession st { s with stop_time := some now })
         (stop_finalize { s with stop_time := some now })) := by
  simp [stop_game_session, stop_phase1, h]

theorem delta_seconds_lt_threshold (t : Int) :
    delta_seconds t < EXPIRED_THRESHOLD_IN_SECONDS := by
  unfold delta_seconds EXPIRED_THRESHOLD_IN_SECONDS
  omega

theorem delta_seconds_bounds (t : Int) :
    0 ≤ delta_seconds t ∧ delta_seconds t < 86400 := by
  unfold delta_seconds
  omega

theorem duration_formula_eq_total_milliseconds (t : Int) :
    delta_days t * 86400000 + delta_seconds t * 1000 + delta_microseconds t / 1000 =
      t / 1000 := by
  unfold delta_days delta_seconds delta_microseconds
  omega

theorem stop_finalize_of_some (s : GameSession) (t : Int) (h : s.stop_time = some t) :
    stop_finalize s =
      { s with
        status :=
          if delta_seconds (t - s.start_time) < EXPIRED_THRESHOLD_IN_SECONDS then
            GameSessionStatus.STOPPED
          else GameSessionStatus.EXPIRED,
        duration := delta_days (t - s.start_time) * 86400000 +
          delta_seconds (t - s.start_time) * 1000 +
          delta_microseconds (t - s.start_time) / 1000,
        deviation := |delta_days (t - s.start_time) * 86400000 +
          delta_seconds (t - s.start_time) * 1000 +
          delta_microseconds (t - s.start_time) / 1000 - 10000| } := by
  simp [stop_finalize, h]

theorem stop_finalize_status_of_some (s : GameSession) (t : Int)
    (h : s.stop_time = some t) :
    (stop_finalize s).status = GameSessionStatus.STOPPED := by
  rw [stop_finalize_of_some s t h]
  simp [delta_seconds_lt_threshold]

theorem stop_finalize_id (s : GameSession) : (stop_finalize s).id = s.id := by
  cases h : s.stop_time <;> simp [stop_finalize, h]

theorem stop_finalize_user_id (s : GameSession) :
    (stop_finalize s).user_id = s.user_id := by
  cases h : s.stop_time <;> simp [stop_finalize, h]

theorem stop_finalize_stop_time (s : GameSession) :
    (stop_finalize s).stop_time = s.stop_time := by
  cases h : s.stop_time <;> simp [stop_finalize, h]

theorem stop_finalize_start_time (s : GameSession) :
    (stop_finalize s).start_time = s.start_time := by
  cases h : s.stop_time <;> simp [stop_finalize, h]

/-- Claim C1 (code bug): the spec requires classification of the FULL
elapsed wall-clock time against a 30-minute (1800 s) threshold, so a
session stopped two hours after start must end EXPIRED.  The source
instead compares only `delta_time.seconds` (the seconds component)
against `30 * 60 * 60 = 108000` (its comment says "30 minute in
seconds"), so the very scenario the spec gives ends STOPPED: starting at
T = 0 and stopping at T + 2 h yields status STOPPED with duration
7200000 and deviation 7190000. -/
theorem stop_two_hours_ends_stopped :
    EXPIRED_THRESHOLD_IN_SECONDS = 108000 ∧
    (stop_game_session (start_game_session emptyStore 0 7).2 7200000000 1).1.map
        (fun x => (x.status, x.duration, x.deviation)) =
      some (GameSessionStatus.STOPPED, 7200000, 7190000) :=
  ⟨by decide, by decide⟩

/-- Claim C2 (counterexample): user 1 starts a session (id 1, owned by
user 1); a stop issued on behalf of a different caller (user 2) does not
return NotFound — it succeeds and stops user 1's session, because the
lookup never consults the caller identity. -/
theorem stop_by_other_user_succeeds :
    (start_game_session emptyStore 0 1).1.user_id = 1 ∧
    (1 : Nat) ≠ 2 ∧
    (stop_as_caller (start_game_session emptyStore 0 1).2 5000000 1 2).1.map
        (fun x => (x.id, x.user_id, x.status)) =
      some (1, 1, GameSessionStatus.STOPPED) :=
  ⟨by decide, by decide, by decide⟩

/-- Claim C2 (amended): `stop` matches a session by id and ACTIVE status
only; the caller's user id is ignored, so the outcome is identical for
every caller, and NotFound occurs exactly when no ACTIVE session with
the requested id exists — ownership is never checked. -/
theorem stop_ignores_caller_identity (st : Store) (now : Int) (gsid a b : Nat) :
    stop_as_caller st now gsid a = stop_as_caller st now gsid b ∧
    ((stop_as_caller st now gsid a).1 = none ↔ findStoppable st gsid = none) := by
  refine ⟨rfl, ?_⟩
  unfold stop_as_caller stop_game_session stop_phase1
  cases h : findStoppable st gsid <;> simp

/-- Claim C8: stopping a session id with no matching ACTIVE session —
the id does not exist, or the session is already STOPPED or EXPIRED —
returns NotFound and leaves the store exactly as it was. -/
theorem stop_missing_or_inactive_not_found (st : Store) (now : Int) (gsid : Nat)
    (h : ∀ s ∈ st.sessions, ¬(s.id = gsid ∧ s.status = GameSessionStatus.ACTIVE)) :
    stop_game_session st now gsid = (none, st) := by
  apply stop_none_eq
  unfold findStoppable
  rw [List.find?_eq_none]
  intro x hx
  simp only [isStoppable, decide_eq_true_eq]
  exact h x hx

/-- Witness for C8: stopping session 1 a second time (it is already
STOPPED) returns NotFound and leaves the store unchanged, as does
stopping an id that never existed. -/
theorem stop_missing_or_inactive_not_found_witness :
    stop_game_session
        (stop_game_session (start_game_session emptyStore 0 1).2 9500000 1).2
        9600000 1 =
      (none, (stop_game_session (start_game_session emptyStore 0 1).2 9500000 1).2) :=
  stop_missing_or_inactive_not_found _ 9600000 1 (by decide)

/-- Claim C3: every successful stop stores as `duration` the elapsed
milliseconds computed from the full delta between stop and start
(days·86400000 + seconds·1000 + microseconds/1000, floor division),
which equals the floor of the full microsecond delta divided by 1000,
and stores as `deviation` the absolute difference between `duration`
and 10000; a session started at T and stopped at T + 9.5 s ends with
duration 9500, deviation 500 and status STOPPED. -/
theorem stop_duration_deviation_exact (st : Store) (now : Int) (gsid : Nat)
    (s : GameSession) (h : findStoppable st gsid = some s) :
    (∃ s2, (stop_game_session st now gsid).1 = some s2 ∧
      s2.duration = delta_days (now - s.start_time) * 86400000 +
        delta_seconds (now - s.start_time) * 1000 +
        delta_microseconds (now - s.start_time) / 1000 ∧
      s2.duration = (now - s.start_time) / 1000 ∧
      s2.deviation = |s2.duration - 10000|) ∧
    (∀ T : Int,
      (stop_game_session (start_game_session emptyStore T 1).2 (T + 9500000) 1).1.map
          (fun x => (x.duration, x.deviation, x.status)) =
        some (9500, 500, GameSessionStatus.STOPPED)) := by
  constructor
  · refine ⟨stop_finalize { s with stop_time := some now }, ?_, ?_, ?_, ?_⟩
    · rw [stop_success_eq st now gsid s h]
    · rw [stop_finalize_of_some _ now rfl]
    · rw [stop_finalize_of_some _ now rfl]
      simpa using duration_formula_eq_total_milliseconds (now - s.start_time)
    · rw [stop_finalize_of_some _ now rfl]
  · intro T
    have hfind : findStoppable (start_game_session emptyStore T 1).2 1 =
        some { id := 1, user_id := 1, start_time := T, stop_time := none,
               status := GameSessionStatus.ACTIVE, duration := 0, deviation := 0 } := rfl
    rw [stop_success_eq _ _ _ _ hfind, stop_finalize_of_some _ (T + 9500000) rfl]
    have e : T + 9500000 - T = (9500000 : Int) := by ring
    simp only [e, Option.map_some]
    norm_num [delta_days, delta_seconds, delta_microseconds,
      EXPIRED_THRESHOLD_IN_SECONDS]

/-- Witness for C3 at a concrete stop: session 1 started at 0 and
stopped at 9500000 microseconds. -/
theorem stop_duration_deviation_exact_witness :
    (∃ s2, (stop_game_session (start_game_session emptyStore 0 1).2 9500000 1).1 =
        some s2 ∧
      s2.duration = delta_days (9500000 - 0) * 86400000 +
        delta_seconds (9500000 - 0) * 1000 + delta_microseconds (9500000 - 0) / 1000 ∧
      s2.duration = (9500000 - 0) / 1000 ∧
      s2.deviation = |s2.duration - 10000|) ∧
    (∀ T : Int,
      (stop_game_session (start_game_session emptyStore T 1).2 (T + 9500000) 1).1.map
          (fun x => (x.duration, x.deviation, x.status)) =
        some (9500, 500, GameSessionStatus.STOPPED)) :=
  stop_duration_deviation_exact (start_game_session emptyStore 0 1).2 9500000 1
    { id := 1, user_id := 1, start_time := 0, stop_time := none,
      status := GameSessionStatus.ACTIVE, duration := 0, deviation := 0 } (by decide)

/-- Claim C5: start is idempotent.  If the user already owns an ACTIVE
session, start returns that session and writes nothing; otherwise it
creates and persists exactly one new ACTIVE session with duration 0,
deviation 0, no stop time and `start_time = now`; consequently two
start calls without an intervening stop return the same session and the
second call leaves the store untouched.  start is total: it always
returns a session. -/
theorem start_idempotent (st : Store) (uid : Nat) (now1 now2 : Int) :
    (∀ s, findActiveSession st uid = some s → start_game_session st now1 uid = (s, st)) ∧
    (findActiveSession st uid = none →
      start_game_session st now1 uid =
        ({ id := st.nextId, user_id := uid, start_time := now1, stop_time := none,
           status := GameSessionStatus.ACTIVE, duration := 0, deviation := 0 },
         { sessions := st.sessions ++
             [{ id := st.nextId, user_id := uid, start_time := now1, stop_time := none,
                status := GameSessionStatus.ACTIVE, duration := 0, deviation := 0 }],
           nextId := st.nextId + 1 })) ∧
    (start_game_session (start_game_session st now1 uid).2 now2 uid =
      ((start_game_session st now1 uid).1, (start_game_session st now1 uid).2)) := by
  refine ⟨?_, ?_, ?_⟩
  · intro s hs
    simp [start_game_session, hs]
  · intro hn
    simp [start_game_session, hn]
  · cases hs : findActiveSession st uid with
    | some s =>
      simp [start_game_session, hs]
    | none =>
      have h2 : findActiveSession
          { sessions := st.sessions ++
              [{ id := st.nextId, user_id := uid, start_time := now1,
                 stop_time := none, status := GameSessionStatus.ACTIVE,
                 duration := 0, deviation := 0 }],
            nextId := st.nextId + 1 } uid =
          some { id := st.nextId, user_id := uid, start_time := now1,
                 stop_time := none, status := GameSessionStatus.ACTIVE,
                 duration := 0, deviation := 0 } := by
        unfold findActiveSession at hs ⊢
        rw [List.find?_append, hs]
        simp [isActiveFor]
      simp [start_game_session, hs, h2]

/-- Witness for C5: in the store where user 1 already has the ACTIVE
session created at time 5, start returns that session unchanged; on the
empty store, start creates the session with id 1. -/
theorem start_idempotent_witness :
    start_game_session (start_game_session emptyStore 5 1).2 7 1 =
      ({ id := 1, user_id := 1, start_time := 5, stop_time := none,
         status := GameSessionStatus.ACTIVE, duration := 0, deviation := 0 },
       (start_game_session emptyStore 5 1).2) ∧
    start_game_session emptyStore 5 1 =
      ({ id := 1, user_id := 1, start_time := 5, stop_time := none,
         status := GameSessionStatus.ACTIVE, duration := 0, deviation := 0 },
       { sessions := [{ id := 1, user_id := 1, start_time := 5, stop_time := none,
                        status := GameSessionStatus.ACTIVE, duration := 0,
                        deviation := 0 }],
         nextId := 2 }) :=
  ⟨(start_idempotent (start_game_session emptyStore 5 1).2 1 7 7).1 _ (by decide),
   by
    have h := (start_idempotent emptyStore 1 5 7).2.1 (by decide)
    simpa [emptyStore] using h⟩

theorem stop_sessions_final (st : Store) (now : Int) (gsid : Nat) (s : GameSession)
    (h : findStoppable st gsid = some s) :
    (stop_game_session st now gsid).2.sessions =
      st.sessions.map (fun t =>
        if t.id = s.id then stop_finalize { s with stop_time := some now } else t) := by
  rw [stop_success_eq st now gsid s h]
  simp only [updateSession, List.map_map]
  apply List.map_congr_left
  intro t ht
  by_cases hid : t.id = s.id
  · simp [Function.comp, hid, stop_finalize_id]
  · simp [Function.comp, hid, stop_finalize_id]

theorem countP_map_le {α : Type} (l : List α) (f : α → α) (p : α → Bool)
    (h : ∀ t ∈ l, p (f t) = true → p t = true) :
    (l.map f).countP p ≤ l.countP p := by
  induction l with
  | nil => simp
  | cons a l ih =>
    simp only [List.map_cons, List.countP_cons]
    have hl := ih (fun t ht => h t (List.mem_cons_of_mem a ht))
    by_cases hfa : p (f a) = true
    · rw [if_pos hfa, if_pos (h a (List.mem_cons_self a l) hfa)]
      omega
    · rw [if_neg hfa]
      split <;> omega

theorem start_activeCount_le (st : Store) (now : Int) (uid u : Nat)
    (hst : activeCount st u ≤ 1) :
    activeCount (start_game_session st now uid).2 u ≤ 1 := by
  cases hs : findActiveSession st uid with
  | some s => simpa [start_game_session, hs] using hst
  | none =>
    simp only [start_game_session, hs]
    unfold activeCount at hst ⊢
    simp only [List.countP_append]
    by_cases hu : u = uid
    · subst hu
      have h0 : st.sessions.countP (isActiveFor u) = 0 := by
        rw [List.countP_eq_zero]
        intro a ha
        have ha2 := List.find?_eq_none.mp hs a ha
        simpa using ha2
      rw [h0]
      simp [isActiveFor]
    · have huid : ¬ uid = u := fun e => hu (Eq.symm e)
      have h1 : List.countP (isActiveFor u)
          [{ id := st.nextId, user_id := uid, start_time := now, stop_time := none,
             status := GameSessionStatus.ACTIVE, duration := 0, deviation := 0 }] = 0 := by
        simp [isActiveFor, huid]
      rw [h1]
      omega

theorem stop_activeCount_le (st : Store) (now : Int) (gsid u : Nat)
    (hst : activeCount st u ≤ 1) :
    activeCount (stop_game_session st now gsid).2 u ≤ 1 := by
  cases h : findStoppable st gsid with
  | none =>
    rw [stop_none_eq st now gsid h]
    exact hst
  | some s =>
    unfold activeCount at hst ⊢
    rw [stop_sessions_final st now gsid s h]
    refine le_trans (countP_map_le _ _ _ ?_) hst
    intro t ht hpt
    by_cases hid : t.id = s.id
    · exfalso
      rw [if_pos hid] at hpt
      have hstat := stop_finalize_status_of_some { s with stop_time := some now } now rfl
      simp [isActiveFor, hstat] at hpt
    · rwa [if_neg hid] at hpt

/-- Claim C4: starting from the empty store, after any sequence of start
and stop operations every user owns at most one ACTIVE session. -/
theorem at_most_one_active_session_per_user (ops : List GameOp) (uid : Nat) :
    activeCount (runOps ops) uid ≤ 1 := by
  unfold runOps
  suffices h : ∀ st : Store, (∀ u, activeCount st u ≤ 1) →
      ∀ u, activeCount (ops.foldl applyOp st) u ≤ 1 by
    refine h emptyStore ?_ uid
    intro u
    simp [activeCount, emptyStore]
  induction ops with
  | nil =>
    intro st hst
    exact hst
  | cons op ops ih =>
    intro st hst u
    simp only [List.foldl_cons]
    refine ih (applyOp st op) ?_ u
    intro u2
    cases op with
    | start uid2 now => exact start_activeCount_le st now uid2 u2 (hst u2)
    | stop gsid now => exact stop_activeCount_le st now gsid u2 (hst u2)

theorem runOps_sessions_invariant (P : GameSession → Prop)
    (hstart : ∀ (i uid : Nat) (now : Int),
      P ⟨i, uid, now, none, GameSessionStatus.ACTIVE, 0, 0⟩)
    (hstop : ∀ (s : GameSession) (now : Int),
      P (stop_finalize { s with stop_time := some now }))
    (ops : List GameOp) : ∀ s ∈ (runOps ops).sessions, P s := by
  unfold runOps
  suffices h : ∀ st : Store, (∀ s ∈ st.sessions, P s) →
      ∀ s ∈ (ops.foldl applyOp st).sessions, P s by
    refine h emptyStore ?_
    intro s hs
    simp [emptyStore] at hs
  induction ops with
  | nil =>
    intro st hst
    exact hst
  | cons op ops ih =>
    intro st hst
    simp only [List.foldl_cons]
    apply ih
    intro s hs
    cases op with
    | start uid now =>
      cases hfind : findActiveSession st uid with
      | some s0 =>
        simp only [applyOp, start_game_session, hfind] at hs
        exact hst s hs
      | none =>
        simp only [applyOp, start_game_session, hfind] at hs
        rcases List.mem_append.mp hs with h1 | h1
        · exact hst s h1
        · rw [List.mem_singleton] at h1
          subst h1
          exact hstart st.nextId uid now
    | stop gsid now =>
      cases hfind : findStoppable st gsid with
      | none =>
        simp only [applyOp] at hs
        rw [stop_none_eq st now gsid hfind] at hs
        exact hst s hs
      | some s0 =>
        simp only [applyOp] at hs
        rw [stop_sessions_final st now gsid s0 hfind] at hs
        rcases List.mem_map.mp hs with ⟨t, ht, rfl⟩
        by_cases hid : t.id = s0.id
        · rw [if_pos hid]
          exact hstop s0 now
        · rw [if_neg hid]
          exact hst t ht

/-- Claim C9 (counterexample): during a stop, the first committed write
sets `stop_time` while `status` is still ACTIVE, so the committed
intermediate state contains a session that is ACTIVE yet has a stop
time, violating "stop_time is absent iff status is ACTIVE taken over
every state committed during the operations". -/
theorem intermediate_commit_active_with_stop_time :
    ((stopCommittedStores (start_game_session emptyStore 0 1).2 5000000 1).head?.map
        (fun st => st.sessions.map (fun s => (s.status, s.stop_time)))) =
      some [(GameSessionStatus.ACTIVE, some 5000000)] := by
  decide

/-- Claim C9 (amended): at every operation boundary — in every store
state reachable by complete start and stop operations from the empty
store — a session's `stop_time` is absent exactly when its status is
ACTIVE.  The equivalence fails only for the transient state committed
midway through `stop`, which sets `stop_time` one commit before the
status. -/
theorem stop_time_absent_iff_active (ops : List GameOp) :
    ∀ s ∈ (runOps ops).sessions,
      s.stop_time = none ↔ s.status = GameSessionStatus.ACTIVE := by
  apply runOps_sessions_invariant
  · intro i uid now
    simp
  · intro s now
    have h2 := stop_finalize_status_of_some { s with stop_time := some now } now rfl
    rw [stop_finalize_stop_time, h2]
    simp

/-- Witness for the amended C9 on the store reached by one start. -/
theorem stop_time_absent_iff_active_witness :
    (({ id := 1, user_id := 1, start_time := 0, stop_time := none,
        status := GameSessionStatus.ACTIVE, duration := 0, deviation := 0 } :
          GameSession).stop_time = none ↔
      ({ id := 1, user_id := 1, start_time := 0, stop_time := none,
         status := GameSessionStatus.ACTIVE, duration := 0, deviation := 0 } :
           GameSession).status = GameSessionStatus.ACTIVE) :=
  stop_time_absent_iff_active [GameOp.start 1 0] _ (by decide)

/-- Claim C10: no reachable store state contains an EXPIRED session.
The classification in stop compares `delta_time.seconds` — the
normalised seconds component, always below 86400 — against the constant
`30 * 60 * 60 = 108000`, so the STOPPED branch is always taken. -/
theorem no_expired_status_reachable (ops : List GameOp) :
    EXPIRED_THRESHOLD_IN_SECONDS = 108000 ∧
    (∀ d : Int, delta_seconds d < 86400) ∧
    ∀ s ∈ (runOps ops).sessions, s.status ≠ GameSessionStatus.EXPIRED := by
  refine ⟨by decide, fun d => (delta_seconds_bounds d).2, ?_⟩
  apply runOps_sessions_invariant
  · intro i uid now
    simp
  · intro s now
    rw [stop_finalize_status_of_some { s with stop_time := some now } now rfl]
    simp

/-- Witness for C10 on the store reached by a start followed by a stop
two hours later. -/
theorem no_expired_status_reachable_witness :
    EXPIRED_THRESHOLD_IN_SECONDS = 108000 ∧
    delta_seconds 7200000000 < 86400 ∧
    ({ id := 1, user_id := 1, start_time := 0, stop_time := some 7200000000,
       status := GameSessionStatus.STOPPED, duration := 7200000,
       deviation := 7190000 } : GameSession).status ≠ GameSessionStatus.EXPIRED :=
  ⟨(no_expired_status_reachable []).1,
   (no_expired_status_reachable []).2.1 7200000000,
   (no_expired_status_reachable [GameOp.start 1 0, GameOp.stop 1 7200000000]).2.2 _
     (by decide)⟩

theorem foldl_min_le_init (l : List Int) (a : Int) : l.foldl min a ≤ a := by
  induction l generalizing a with
  | nil => simp
  | cons x xs ih =>
    simp only [List.foldl_cons]
    exact le_trans (ih (min a x)) (min_le_left a x)

theorem foldl_min_le_mem (l : List Int) (b : Int) :
    b ∈ l → ∀ a, l.foldl min a ≤ b := by
  induction l with
  | nil => intro hb; cases hb
  | cons x xs ih =>
    intro hb a
    simp only [List.foldl_cons]
    rcases List.mem_cons.mp hb with h1 | h1
    · subst h1
      exact le_trans (foldl_min_le_init xs (min a b)) (min_le_right a b)
    · exact ih h1 (min a x)

theorem foldl_min_mem_or (l : List Int) (a : Int) :
    l.foldl min a = a ∨ l.foldl min a ∈ l := by
  induction l generalizing a with
  | nil => exact Or.inl rfl
  | cons x xs ih =>
    simp only [List.foldl_cons]
    rcases ih (min a x) with h | h
    · rcases min_choice a x with h2 | h2
      · exact Or.inl (h.trans h2)
      · exact Or.inr (by rw [h, h2]; exact List.mem_cons_self x xs)
    · exact Or.inr (List.mem_cons_of_mem x h)

theorem min?_least (l : List Int) (m : Int) (h : l.min? = some m) :
    m ∈ l ∧ ∀ b ∈ l, m ≤ b := by
  cases l with
  | nil => cases h
  | cons x xs =>
    rw [List.min?_cons'] at h
    obtain rfl : xs.foldl min x = m := Option.some.inj h
    constructor
    · rcases foldl_min_mem_or xs x with h1 | h1
      · rw [h1]
        exact List.mem_cons_self x xs
      · exact List.mem_cons_of_mem x h1
    · intro b hb
      rcases List.mem_cons.mp hb with h1 | h1
      · rw [h1]
        exact foldl_min_le_init xs x
      · exact foldl_min_le_mem xs b h1 x

theorem min?_some_of_ne_nil (l : List Int) (h : l ≠ []) : ∃ m, l.min? = some m := by
  cases l with
  | nil => exact absurd rfl h
  | cons x xs => exact ⟨xs.foldl min x, List.min?_cons'⟩

theorem mem_aggByUser (sessions : List GameSession) (r : AggRow)
    (h : r ∈ aggByUser sessions) :
    r.user_id ∈ userIds sessions ∧
    r.total_games = (devsOf sessions r.user_id).length ∧
    r.avg_deviation = ((devsOf sessions r.user_id).map (fun d => (d : Rat))).sum /
      ((devsOf sessions r.user_id).length : Rat) ∧
    r.best_deviation = ((devsOf sessions r.user_id).min?).getD 0 := by
  unfold aggByUser at h
  rcases List.mem_map.mp h with ⟨uid, huid, rfl⟩
  exact ⟨huid, rfl, rfl, rfl⟩

theorem devsOf_ne_nil (sessions : List GameSession) (uid : Nat)
    (h : uid ∈ userIds sessions) : devsOf sessions uid ≠ [] := by
  unfold userIds at h
  rw [List.mem_dedup] at h
  rcases List.mem_map.mp h with ⟨s, hs, hsuid⟩
  intro hnil
  have hmem : s ∈ sessionsOf sessions uid := by
    rw [sessionsOf, List.mem_filter]
    exact ⟨hs, by simp [hsuid]⟩
  have : s.deviation ∈ devsOf sessions uid := List.mem_map_of_mem _ hmem
  rw [hnil] at this
  cases this

theorem joinUsername_some (users : List UserRec) (r : AggRow) (row : LeaderboardRow)
    (h : joinUsername users r = some row) :
    ∃ u ∈ users, u.id = r.user_id ∧
      row = { username := u.username, total_games := r.total_games,
              average_deviation := r.avg_deviation,
              best_deviation := r.best_deviation } := by
  unfold joinUsername at h
  cases hf : users.find? (fun u => decide (u.id = r.user_id)) with
  | none =>
    rw [hf] at h
    cases h
  | some u =>
    rw [hf] at h
    refine ⟨u, List.mem_of_find?_eq_some hf, ?_, ?_⟩
    · have hp := List.find?_some hf
      simpa using hp
    · exact (Option.some.inj h).symm

theorem aggByUser_pairwise_userId (sessions : List GameSession) :
    (aggByUser sessions).Pairwise (fun a b => a.user_id ≠ b.user_id) := by
  unfold aggByUser
  rw [List.pairwise_map]
  exact (List.nodup_dedup _).imp (fun hab => hab)

theorem leaderboardRows_nodup (users : List UserRec) (sessions : List GameSession)
    (husers : (users.map UserRec.username).Nodup) :
    (leaderboardRows users sessions).Nodup := by
  unfold leaderboardRows
  have hpw := aggByUser_pairwise_userId sessions
  show (List.filterMap (joinUsername users) (aggByUser sessions)).Pairwise (· ≠ ·)
  rw [List.pairwise_filterMap]
  refine hpw.imp ?_
  intro a b hab x hx y hy
  rw [Option.mem_def] at hx hy
  rcases joinUsername_some users a x hx with ⟨u1, hu1, hid1, rfl⟩
  rcases joinUsername_some users b y hy with ⟨u2, hu2, hid2, rfl⟩
  intro hxy
  have hname : u1.username = u2.username := congrArg LeaderboardRow.username hxy
  have hu12 : u1 = u2 := List.inj_on_of_nodup_map husers hu1 hu2 hname
  apply hab
  rw [← hid1, ← hid2, hu12]

theorem mem_leaderboardRows (users : List UserRec) (sessions : List GameSession)
    (r : LeaderboardRow) (h : r ∈ leaderboardRows users sessions) :
    ∃ u ∈ users,
      r.username = u.username ∧
      r.total_games = (sessionsOf sessions u.id).length ∧
      r.average_deviation =
        ((devsOf sessions u.id).map (fun d => (d : Rat))).sum /
          (r.total_games : Rat) ∧
      r.best_deviation ∈ devsOf sessions u.id ∧
      ∀ d ∈ devsOf sessions u.id, r.best_deviation ≤ d := by
  unfold leaderboardRows at h
  rcases List.mem_filterMap.mp h with ⟨a, ha, hja⟩
  rcases joinUsername_some users a r hja with ⟨u, hu, hid, rfl⟩
  obtain ⟨huid, htot, havg, hbest⟩ := mem_aggByUser sessions a ha
  rw [← hid] at huid htot havg hbest
  obtain ⟨m, hm⟩ := min?_some_of_ne_nil _ (devsOf_ne_nil sessions u.id huid)
  obtain ⟨hmmem, hmle⟩ := min?_least _ m hm
  refine ⟨u, hu, rfl, ?_, ?_, ?_, ?_⟩
  · rw [htot]
    exact List.length_map _ _
  · rw [havg, htot]
  · show a.best_deviation ∈ devsOf sessions u.id
    rw [hbest, hm]
    exact hmmem
  · intro d hd
    show a.best_deviation ≤ d
    rw [hbest, hm]
    exact hmle d hd

/-- Claim C6: the leaderboard aggregates over ALL game sessions
regardless of status, grouped by user — session count, mean deviation,
minimum deviation — joined to the username; the returned page is sorted
ascending by average deviation, contains at most `per_page` rows, pages
1 and 2 (10 rows each) are consecutive segments of the same ordering,
and (usernames being unique) they share no entry. -/
theorem leaderboard_spec (users : List UserRec) (sessions : List GameSession)
    (page per_page : Nat) (husers : (users.map UserRec.username).Nodup) :
    (calc_leaderboard users sessions page per_page).length ≤ per_page ∧
    List.Sorted rowLe (calc_leaderboard users sessions page per_page) ∧
    (∀ r ∈ calc_leaderboard users sessions page per_page,
      ∃ u ∈ users,
        r.username = u.username ∧
        r.total_games = (sessionsOf sessions u.id).length ∧
        r.average_deviation =
          ((devsOf sessions u.id).map (fun d => (d : Rat))).sum /
            (r.total_games : Rat) ∧
        r.best_deviation ∈ devsOf sessions u.id ∧
        ∀ d ∈ devsOf sessions u.id, r.best_deviation ≤ d) ∧
    (calc_leaderboard users sessions 1 10 ++ calc_leaderboard users sessions 2 10 =
      (List.insertionSort rowLe (leaderboardRows users sessions)).take 20) ∧
    (∀ r ∈ calc_leaderboard users sessions 1 10,
      r ∉ calc_leaderboard users sessions 2 10) := by
  have hsorted := List.sorted_insertionSort rowLe (leaderboardRows users sessions)
  have hperm := List.perm_insertionSort rowLe (leaderboardRows users sessions)
  refine ⟨?_, ?_, ?_, ?_, ?_⟩
  · exact List.length_take_le _ _
  · unfold calc_leaderboard
    exact hsorted.sublist
      ((List.take_sublist _ _).trans (List.drop_sublist _ _))
  · intro r hr
    have hr2 : r ∈ leaderboardRows users sessions := by
      unfold calc_leaderboard at hr
      exact hperm.mem_iff.mp
        (List.drop_subset _ _ (List.take_subset _ _ hr))
    exact mem_leaderboardRows users sessions r hr2
  · unfold calc_leaderboard
    norm_num
    exact (List.take_add _ 10 10).symm
  · intro r h1 h2
    have hnd : (List.insertionSort rowLe (leaderboardRows users sessions)).Nodup :=
      hperm.nodup_iff.mpr (leaderboardRows_nodup users sessions husers)
    have hsplit := List.take_append_drop 10
      (List.insertionSort rowLe (leaderboardRows users sessions))
    have hdisj : (List.take 10
        (List.insertionSort rowLe (leaderboardRows users sessions))).Disjoint
        (List.drop 10 (List.insertionSort rowLe (leaderboardRows users sessions))) := by
      have hnd2 := hnd
      rw [← hsplit] at hnd2
      exact (List.nodup_append.mp hnd2).2.2
    have hm1 : r ∈ List.take 10
        (List.insertionSort rowLe (leaderboardRows users sessions)) := by
      unfold calc_leaderboard at h1
      norm_num at h1
      exact h1
    have hm2 : r ∈ List.drop 10
        (List.insertionSort rowLe (leaderboardRows users sessions)) := by
      unfold calc_leaderboard at h2
      norm_num at h2
      exact List.take_subset _ _ h2
    exact hdisj hm1 hm2

/-- Witness for C6 on the concrete store with one user and three
sessions. -/
theorem leaderboard_spec_witness :
    (calc_leaderboard exUsers exSessions3 1 10).length ≤ 10 ∧
    List.Sorted rowLe (calc_leaderboard exUsers exSessions3 1 10) ∧
    (∀ r ∈ calc_leaderboard exUsers exSessions3 1 10,
      ∃ u ∈ exUsers,
        r.username = u.username ∧
        r.total_games = (sessionsOf exSessions3 u.id).length ∧
        r.average_deviation =
          ((devsOf exSessions3 u.id).map (fun d => (d : Rat))).sum /
            (r.total_games : Rat) ∧
        r.best_deviation ∈ devsOf exSessions3 u.id ∧
        ∀ d ∈ devsOf exSessions3 u.id, r.best_deviation ≤ d) ∧
    (calc_leaderboard exUsers exSessions3 1 10 ++
        calc_leaderboard exUsers exSessions3 2 10 =
      (List.insertionSort rowLe (leaderboardRows exUsers exSessions3)).take 20) ∧
    (∀ r ∈ calc_leaderboard exUsers exSessions3 1 10,
      r ∉ calc_leaderboard exUsers exSessions3 2 10) :=
  leaderboard_spec exUsers exSessions3 1 10 (by decide)

theorem aggRowFor_user_id (sessions : List GameSession) (uid : Nat) :
    (aggRowFor sessions uid).user_id = uid := rfl

theorem filter_key_map {β : Type} (key : β → Nat) (f : Nat → β)
    (hf : ∀ x, key (f x) = x) :
    ∀ l : List Nat, l.Nodup → ∀ uid ∈ l,
      (l.map f).filter (fun r => decide (key r = uid)) = [f uid] := by
  intro l
  induction l with
  | nil =>
    intro _ uid h
    cases h
  | cons a l ih =>
    intro hnd uid hmem
    rw [List.nodup_cons] at hnd
    rcases List.mem_cons.mp hmem with h1 | h1
    · subst h1
      simp only [List.map_cons, List.filter_cons, hf, decide_eq_true_eq]
      rw [if_pos trivial]
      congr 1
      rw [List.filter_eq_nil_iff]
      intro b hb
      rcases List.mem_map.mp hb with ⟨x, hx, rfl⟩
      simp only [hf, decide_eq_true_eq]
      exact fun e => hnd.1 (e ▸ hx)
    · have ha : ¬ (a = uid) := fun e => hnd.1 (e ▸ h1)
      simp only [List.map_cons, List.filter_cons]
      rw [if_neg (by simp [hf, ha])]
      exact ih hnd.2 uid h1

theorem user_game_history_eq (users : List UserRec) (sessions : List GameSession)
    (uid : Nat) (u : UserRec)
    (hfind : users.find? (fun x => decide (x.id = uid)) = some u)
    (hs : uid ∈ userIds sessions) :
    user_game_history users sessions uid =
      some { username := u.username,
             total_games := (devsOf sessions uid).length,
             average_deviation := ((devsOf sessions uid).map (fun d => (d : Rat))).sum /
               ((devsOf sessions uid).length : Rat),
             best_deviation := ((devsOf sessions uid).min?).getD 0,
             history := sessionsOf sessions uid } := by
  have hfilter := filter_key_map AggRow.user_id (aggRowFor sessions) (fun x => rfl)
    (userIds sessions) (List.nodup_dedup _) uid hs
  have hjoin : joinUsername users (aggRowFor sessions uid) =
      some { username := u.username,
             total_games := (aggRowFor sessions uid).total_games,
             average_deviation := (aggRowFor sessions uid).avg_deviation,
             best_deviation := (aggRowFor sessions uid).best_deviation } := by
    unfold joinUsername
    simp only [aggRowFor_user_id]
    rw [hfind]
  unfold user_game_history aggByUser
  rw [hfilter]
  simp only [List.filterMap_cons, hjoin, List.filterMap_nil, List.head?_cons]
  rfl

/-- Claim C7: for a user that exists and has at least one session,
`user_game_history` returns the username, the session count, the mean
deviation, the minimum deviation and the full list of that user's
sessions; for a user with three stopped sessions of deviations
100, 50 and 200 it returns average 350/3 (about 116.67), best 50,
3 games, and exactly those three records. -/
theorem user_history_spec (users : List UserRec) (sessions : List GameSession)
    (uid : Nat) (u : UserRec)
    (hfind : users.find? (fun x => decide (x.id = uid)) = some u)
    (hs : ∃ s ∈ sessions, s.user_id = uid) :
    (∃ r, user_game_history users sessions uid = some r ∧
      r.username = u.username ∧
      r.total_games = (sessionsOf sessions uid).length ∧
      r.average_deviation =
        ((devsOf sessions uid).map (fun d => (d : Rat))).sum /
          (r.total_games : Rat) ∧
      r.average_deviation * (r.total_games : Rat) =
        ((devsOf sessions uid).map (fun d => (d : Rat))).sum ∧
      r.best_deviation ∈ devsOf sessions uid ∧
      (∀ d ∈ devsOf sessions uid, r.best_deviation ≤ d) ∧
      r.history = sessionsOf sessions uid) ∧
    ((user_game_history exUsers exSessions3 1).map
        (fun r => (r.username, r.total_games, r.average_deviation,
          r.best_deviation, r.history)) =
      some ("alice", 3, (350 : Rat) / 3, 50, exSessions3)) := by
  constructor
  · rcases hs with ⟨s0, hs0, hs0uid⟩
    have huid : uid ∈ userIds sessions := by
      unfold userIds
      rw [List.mem_dedup]
      exact List.mem_map.mpr ⟨s0, hs0, hs0uid⟩
    have hne := devsOf_ne_nil sessions uid huid
    obtain ⟨m, hm⟩ := min?_some_of_ne_nil _ hne
    obtain ⟨hmmem, hmle⟩ := min?_least _ m hm
    have hlen0 : (devsOf sessions uid).length ≠ 0 := by
      intro h0
      exact hne (List.length_eq_zero.mp h0)
    have hlenQ : ((devsOf sessions uid).length : Rat) ≠ 0 := by
      exact_mod_cast hlen0
    refine ⟨_, user_game_history_eq users sessions uid u hfind huid, rfl, ?_, ?_, ?_, ?_, ?_, rfl⟩
    · show (devsOf sessions uid).length = (sessionsOf sessions uid).length
      exact List.length_map _ _
    · show ((devsOf sessions uid).map (fun d => (d : Rat))).sum /
          ((devsOf sessions uid).length : Rat) =
        ((devsOf sessions uid).map (fun d => (d : Rat))).sum /
          (((devsOf sessions uid).length : Nat) : Rat)
      rfl
    · show ((devsOf sessions uid).map (fun d => (d : Rat))).sum /
          ((devsOf sessions uid).length : Rat) *
          (((devsOf sessions uid).length : Nat) : Rat) =
        ((devsOf sessions uid).map (fun d => (d : Rat))).sum
      exact div_mul_cancel₀ _ hlenQ
    · show ((devsOf sessions uid).min?).getD 0 ∈ devsOf sessions uid
      rw [hm]
      exact hmmem
    · intro d hd
      show ((devsOf sessions uid).min?).getD 0 ≤ d
      rw [hm]
      exact hmle d hd
  · norm_num [user_game_history, aggByUser, aggRowFor, userIds, devsOf, sessionsOf,
      joinUsername, exUsers, exSess, exSessions3, List.dedup, List.filter,
      List.find?, List.min?]

/-- Witness for C7 on the concrete store: user alice with the three
example sessions. -/
theorem user_history_spec_witness :
    (∃ r, user_game_history exUsers exSessions3 1 = some r ∧
      r.username = ({ id := 1, username := "alice" } : UserRec).username ∧
      r.total_games = (sessionsOf exSessions3 1).length ∧
      r.average_deviation =
        ((devsOf exSessions3 1).map (fun d => (d : Rat))).sum /
          (r.total_games : Rat) ∧
      r.average_deviation * (r.total_games : Rat) =
        ((devsOf exSessions3 1).map (fun d => (d : Rat))).sum ∧
      r.best_deviation ∈ devsOf exSessions3 1 ∧
      (∀ d ∈ devsOf exSessions3 1, r.best_deviation ≤ d) ∧
      r.history = sessionsOf exSessions3 1) ∧
    ((user_game_history exUsers exSessions3 1).map
        (fun r => (r.username, r.total_games, r.average_deviation,
          r.best_deviation, r.history)) =
      some ("alice", 3, (350 : Rat) / 3, 50, exSessions3)) :=
  user_history_spec exUsers exSessions3 1 { id := 1, username := "alice" }
    (by decide) (by decide)
